import Mathlib

/-!
# Verification of the EOCIS CHUK API mask algebra and metadata validation

A shallow embedding, in Lean 4, of the core logic of the `eocis_chuk_api`
package: the mask algebra engine of `chuk_auxilary_utils.py`
(`Mask`, `CHUKAuxilaryDataMask`, `CHUKAuxilaryDataCombinedMask`,
`CHUKAuxilaryUtils.create_mask`), the metadata check of `chuk_metadata.py`
(`CHUKMetadata.check`), and the shape check / attribute assembly of
`chuk_dataset_utils.py` (`CHUKDataSetUtils.check`,
`CHUKDataSetUtils.__extend_attrs`, `create_new_dataset`).

Grids are modelled as a shape (list of dimension sizes) together with a
flattened list of cells.  Raster cells are `Option Int`: `some v` is an
integer category code, `none` models the IEEE NaN missing-data sentinel.
Python dicts are modelled as insertion-ordered association lists.
-/

/-- Decidable equality for `Except`, used to evaluate the embedded
fallible operations on concrete inputs. -/
instance {ε α : Type} [DecidableEq ε] [DecidableEq α] :
    DecidableEq (Except ε α) := fun a b =>
  match a, b with
  | .error e, .error e' =>
    if h : e = e' then .isTrue (by rw [h]) else .isFalse (by simp [h])
  | .ok v, .ok v' =>
    if h : v = v' then .isTrue (by rw [h]) else .isFalse (by simp [h])
  | .error _, .ok _ => .isFalse (by simp)
  | .ok _, .error _ => .isFalse (by simp)

namespace CHUK

/-! ## Shell-style glob matching (Python `fnmatch`)

`CHUKAuxilaryDataMask.__get_matching_keys` matches category names against a
pattern with `fnmatch.fnmatch`, i.e. shell-style globbing with `*`, `?` and
`[...]` character classes (with `[!...]` negation and `a-z` ranges; an
unclosed `[` is a literal character).  On POSIX `fnmatch` is case-sensitive.
The matcher below consumes fuel bounded by `pattern.length + name.length`;
every recursive step shortens the pattern or the name, so the initial fuel
`p.length + s.length + 1` always suffices. -/

/-- Membership of a character in a (already delimited) bracket class body,
with `a-z` range support; a trailing or leading `-` is a literal. -/
def charInClass (c : Char) : List Char → Bool
  | a :: '-' :: b :: rest =>
      (decide (a.toNat ≤ c.toNat) && decide (c.toNat ≤ b.toNat)) || charInClass c rest
  | a :: rest => (a == c) || charInClass c rest
  | [] => false

/-- Scan up to the closing `]` of a bracket class, returning the class body
and the remainder of the pattern; `none` when the class is unclosed. -/
def scanClass : List Char → Option (List Char × List Char)
  | [] => none
  | ']' :: rest => some ([], rest)
  | c :: rest => (scanClass rest).map (fun p => (c :: p.1, p.2))

/-- Parse a bracket class given the pattern characters after `[`:
returns (negated?, class body, rest of pattern).  A `!` right after `[`
negates; a `]` in first position (after the optional `!`) is a literal
member. -/
def parseClass (ps : List Char) : Option (Bool × List Char × List Char) :=
  match ps with
  | '!' :: ']' :: t => (scanClass t).map (fun p => (true, ']' :: p.1, p.2))
  | '!' :: t => (scanClass t).map (fun p => (true, p.1, p.2))
  | ']' :: t => (scanClass t).map (fun p => (false, ']' :: p.1, p.2))
  | t => (scanClass t).map (fun p => (false, p.1, p.2))

/-- Fuel-indexed glob matcher: does `s` match pattern `p`?  The fuel is an
artifact of the embedding; `globMatch` below supplies enough for any input. -/
def globMatchFuel : Nat → List Char → List Char → Bool
  | 0, _, _ => false
  | fuel + 1, p, s =>
    match p, s with
    | [], [] => true
    | [], _ :: _ => false
    | '*' :: ps, s =>
        globMatchFuel fuel ps s ||
          (match s with
           | [] => false
           | _ :: s' => globMatchFuel fuel ('*' :: ps) s')
    | '?' :: _, [] => false
    | '?' :: ps, _ :: s' => globMatchFuel fuel ps s'
    | '[' :: ps, s =>
        (match parseClass ps with
         | none =>
             -- unclosed bracket: `[` is a literal character
             (match s with
              | '[' :: s' => globMatchFuel fuel ps s'
              | _ => false)
         | some (neg, cls, rest) =>
             (match s with
              | [] => false
              | c :: s' => (neg != charInClass c cls) && globMatchFuel fuel rest s'))
    | _ :: _, [] => false
    | a :: ps, c :: s' => (a == c) && globMatchFuel fuel ps s'

/-- `fnmatch name pattern`: does `name` match the shell glob `pattern`
(case-sensitively, as on POSIX)? -/
def fnmatch (name pattern : String) : Bool :=
  globMatchFuel (pattern.length + name.length + 1) pattern.toList name.toList

/-! ## Python dicts as insertion-ordered association lists -/

/-- `d[k] = v` on a Python dict: overwrite in place when the key exists,
else append, preserving insertion order. -/
def dictInsert {α : Type} (d : List (String × α)) (k : String) (v : α) :
    List (String × α) :=
  if d.any (fun p => p.1 == k) then
    d.map (fun p => if p.1 == k then (k, v) else p)
  else
    d ++ [(k, v)]

/-- `d[k]` / `d.get(k)`: first (unique) binding of `k`. -/
def dictLookup {α : Type} (d : List (String × α)) (k : String) : Option α :=
  (d.find? (fun p => p.1 == k)).map (fun p => p.2)

/-- `list(d.keys())`, in insertion order. -/
def dictKeys {α : Type} (d : List (String × α)) : List String :=
  d.map (fun p => p.1)

/-- `k in d`. -/
def dictContains {α : Type} (d : List (String × α)) (k : String) : Bool :=
  d.any (fun p => p.1 == k)

/-! ## Python `str.split(sep)` for a single-character separator -/

/-- Split a character list at every occurrence of `sep` (Python
`str.split(sep)` semantics: consecutive separators yield empty fields, the
empty string yields one empty field). -/
def splitOnChar (sep : Char) : List Char → List (List Char)
  | [] => [[]]
  | c :: rest =>
    let r := splitOnChar sep rest
    if c == sep then [] :: r
    else
      match r with
      | [] => [[c]]
      | g :: gs => (c :: g) :: gs

/-- Python `s.split(" ")` with a one-character separator. -/
def pySplit (s : String) (sep : Char) : List String :=
  (splitOnChar sep s.toList).map (fun cs => String.mk cs)

/-! ## Grids

A raster grid: a shape (per-dimension sizes, e.g. `[y, x]` or `[time, y, x]`)
and a flattened cell list.  A raster cell `none` models the NaN
missing-data sentinel of the netCDF variable; `some v` an integer flag
code. -/

/-- A raster of integer category codes with NaN cells (`xarray.DataArray`). -/
structure Grid where
  shape : List Nat
  data : List (Option Int)
deriving DecidableEq, Repr

/-- A boolean mask grid (`xarray.DataArray` of bools). -/
structure BGrid where
  shape : List Nat
  data : List Bool
deriving DecidableEq, Repr

/-! ## `CHUKAuxilaryDataMask` (the leaf mask) -/

/-- State of a `CHUKAuxilaryDataMask` instance: the raster variable `da`,
the `flag_meanings`→`flag_values` lookup, the selected tokens, the lazy
cache, and the `include_missing` flag. -/
structure CHUKAuxilaryDataMask where
  da : Grid
  value_lookup : List (String × Int)
  mask_values : List String
  cached_result : Option BGrid
  include_missing : Bool
deriving DecidableEq, Repr

namespace CHUKAuxilaryDataMask

/-- `CHUKAuxilaryDataMask.__init__`: split `flag_meanings` on spaces, zip
with `flag_values` into the lookup dict (Python `zip` truncates to the
shorter sequence), start with an empty selection and an empty cache. -/
def init (da : Grid) (flag_meanings : String) (flag_values : List Int)
    (include_missing : Bool := false) : CHUKAuxilaryDataMask :=
  let meanings := pySplit flag_meanings ' '
  let value_lookup :=
    (meanings.zip flag_values).foldl (fun d p => dictInsert d p.1 p.2) []
  { da := da, value_lookup := value_lookup, mask_values := [],
    cached_result := none, include_missing := include_missing }

/-- `CHUKAuxilaryDataMask.__get_matching_keys`: an exact key match returns
just that key, otherwise every key matching the glob pattern, in dict
(declaration) order. -/
def get_matching_keys (value_lookup : List (String × Int))
    (value_or_pattern : String) : List String :=
  if dictContains value_lookup value_or_pattern then [value_or_pattern]
  else (dictKeys value_lookup).filter (fun key => fnmatch key value_or_pattern)

/-- `CHUKAuxilaryDataMask.get_all_mask_values`. -/
def get_all_mask_values (m : CHUKAuxilaryDataMask) : List String :=
  dictKeys m.value_lookup

/-- `CHUKAuxilaryDataMask.get_selected_mask_values`. -/
def get_selected_mask_values (m : CHUKAuxilaryDataMask) : List String :=
  m.mask_values.foldl (fun keys mv => keys ++ get_matching_keys m.value_lookup mv) []

/-- `CHUKAuxilaryDataMask.add_mask_value`: raise `ValueError` when the token
matches nothing; otherwise clear the cache and append the token, returning
the matched keys.  The mutation is modelled by returning the new state. -/
def add_mask_value (m : CHUKAuxilaryDataMask) (mask_value : String) :
    Except String (List String × CHUKAuxilaryDataMask) :=
  let matching_keys := get_matching_keys m.value_lookup mask_value
  if matching_keys.length = 0 then
    .error ("Value " ++ mask_value ++ " does not match any values " ++
      String.intercalate "," (dictKeys m.value_lookup))
  else
    .ok (matching_keys,
      { m with cached_result := none, mask_values := m.mask_values ++ [mask_value] })

/-- The cache-miss branch of `CHUKAuxilaryDataMask.to_array`: gather the
keys matched by every selected token, map them to codes, take
`xr.where(da.isin(filter_values), True, False)` (NaN cells are never `isin`)
and, when `include_missing` is set, `xr.where(np.isnan(da), True, _)`. -/
def evaluate (m : CHUKAuxilaryDataMask) : BGrid :=
  let filter_keys :=
    m.mask_values.foldl (fun keys mv => keys ++ get_matching_keys m.value_lookup mv) []
  let filter_values := filter_keys.filterMap (fun key => dictLookup m.value_lookup key)
  let isin := m.da.data.map (fun cell =>
    match cell with
    | some v => filter_values.contains v
    | none => false)
  let result :=
    if m.include_missing then
      List.zipWith (fun cell b => if Option.isNone cell then true else b) m.da.data isin
    else isin
  { shape := m.da.shape, data := result }

/-- `CHUKAuxilaryDataMask.to_array`: return the cache when populated,
otherwise evaluate, populate the cache and return the result.  The pair is
(result, post-call state). -/
def to_array (m : CHUKAuxilaryDataMask) : BGrid × CHUKAuxilaryDataMask :=
  match m.cached_result with
  | some g => (g, m)
  | none =>
      let g := evaluate m
      (g, { m with cached_result := some g })

end CHUKAuxilaryDataMask

/-! ## `CHUKAuxilaryDataCombinedMask` -/

/-- A mask expression tree: a leaf raster mask or a combination node. -/
inductive MaskT where
  | leaf : CHUKAuxilaryDataMask → MaskT
  | comb : List MaskT → String → MaskT

/-- `CHUKAuxilaryDataCombinedMask.__init__`: validate the child list and
operator, raising `ValueError` for an empty child list, an unknown
operator, or `"not"` with more than one child. -/
def CHUKAuxilaryDataCombinedMask.init (masks : List MaskT)
    (operator : String := "or") : Except String MaskT :=
  if masks.length = 0 then
    .error "masks must be a non-empty list"
  else if ¬(operator = "and" ∨ operator = "or" ∨ operator = "not") then
    .error "operator must be one of and, or or not"
  else if operator = "not" ∧ masks.length > 1 then
    .error "only one mask can be supplied for the not operator"
  else
    .ok (MaskT.comb masks operator)

/-- Elementwise OR over a stack of equally-shaped layers
(`xr.concat(..., "layer").any(dim="layer")`). -/
def reduceOr : List (List Bool) → List Bool
  | [] => []
  | [g] => g
  | g :: rest => List.zipWith (fun a b => a || b) g (reduceOr rest)

/-- Elementwise AND over a stack of equally-shaped layers
(`xr.concat(..., "layer").all(dim="layer")`). -/
def reduceAnd : List (List Bool) → List Bool
  | [] => []
  | [g] => g
  | g :: rest => List.zipWith (fun a b => a && b) g (reduceAnd rest)

/-- `CHUKAuxilaryDataCombinedMask.to_array`, expressed over the already
evaluated child arrays: `"not"` complements the single child
(`xr.where(m, False, True)`); `"or"`/`"and"` stack the children along a
synthetic `layer` axis and reduce elementwise.  `none` models the xarray
failures on an empty child list (and the implicit `None` fall-through for
an unknown operator, unreachable after `__init__` validation). -/
def combined_to_array (operator : String) (child_arrays : List BGrid) :
    Option BGrid :=
  if operator = "not" then
    match child_arrays with
    | [] => none
    | m :: _ => some { shape := m.shape,
                       data := m.data.map (fun b => if b then false else true) }
  else if operator = "or" then
    match child_arrays with
    | [] => none
    | g :: gs => some { shape := g.shape, data := reduceOr (g.data :: gs.map (·.data)) }
  else if operator = "and" then
    match child_arrays with
    | [] => none
    | g :: gs => some { shape := g.shape, data := reduceAnd (g.data :: gs.map (·.data)) }
  else none

/-! ## Whole-tree evaluation, `count` and `fraction` -/

mutual

/-- `to_array` over a whole mask tree: a leaf evaluates (value of)
`CHUKAuxilaryDataMask.to_array`; a combination node recursively evaluates
every child and applies `CHUKAuxilaryDataCombinedMask.to_array`
(a `CombinedMask` never caches — every call recomputes over children). -/
def MaskT.to_array : MaskT → Option BGrid
  | .leaf m => some (CHUKAuxilaryDataMask.to_array m).1
  | .comb masks operator =>
    match MaskT.to_array_list masks with
    | none => none
    | some arrays => combined_to_array operator arrays

/-- Child-by-child evaluation of `[m.to_array() for m in self.input_masks]`. -/
def MaskT.to_array_list : List MaskT → Option (List BGrid)
  | [] => some []
  | m :: rest =>
    match MaskT.to_array m, MaskT.to_array_list rest with
    | some a, some arrays => some (a :: arrays)
    | _, _ => none

end

/-- The exact integer value of `array.sum()` on a boolean grid. -/
def mask_sum (g : BGrid) : Nat :=
  g.data.foldl (fun acc b => acc + (if b then 1 else 0)) 0

/-- `Mask.count`: `int(self.to_array().sum())`. -/
def MaskT.count (m : MaskT) : Option Nat :=
  (MaskT.to_array m).map mask_sum

/-- `Mask.fraction`: `m = self.to_array(); count = 1;
for d in m.shape: count *= d; return int(m.sum()) / count`, with Python's
true division modelled as exact rational division. -/
def MaskT.fraction (m : MaskT) : Option ℚ :=
  (MaskT.to_array m).map (fun g =>
    (mask_sum g : ℚ) / ((g.shape.foldl (fun count d => count * d) 1 : Nat) : ℚ))

/-! ## `CHUKAuxilaryUtils.create_mask` -/

/-- The `for mask_value in mask_values: mask.add_mask_value(mask_value)`
loop of `create_mask`; a `ValueError` from any token propagates. -/
def addAllMaskValues : CHUKAuxilaryDataMask → List String →
    Except String CHUKAuxilaryDataMask
  | m, [] => .ok m
  | m, v :: rest =>
    match m.add_mask_value v with
    | .error e => .error e
    | .ok (_, m') => addAllMaskValues m' rest

/-- `CHUKAuxilaryUtils.create_mask`: builds the leaf mask with
`CHUKAuxilaryDataMask(dataset_path, variable)` — the `include_missing`
argument is accepted but, exactly as in the source, never forwarded to the
constructor (whose own default is `False`) — then adds every token.
The raster access is abstracted by passing the opened variable's cells and
flag attributes directly. -/
def CHUKAuxilaryUtils.create_mask (da : Grid) (flag_meanings : String)
    (flag_values : List Int) (mask_values : List String)
    (include_missing : Bool := false) : Except String CHUKAuxilaryDataMask :=
  let mask := CHUKAuxilaryDataMask.init da flag_meanings flag_values
  addAllMaskValues mask mask_values

/-! ## `CHUKMetadata.check` -/

namespace CHUKMetadata

/-- `CHUKMetadata.expected_dataset_metadata_keys`: the Python set literal,
written in source order; set construction deduplicates the repeated
entries (`Conventions`, `product_version`, `summary` appear twice in the
literal). -/
def expected_dataset_metadata_keys : List String :=
  ([ "title", "institution", "product_version", "Conventions", "summary",
     "license", "history", "references", "tracking_id", "Conventions",
     "product_version", "format_version", "summary", "keywords", "id",
     "naming_authority", "comment", "date_created", "creator_url",
     "creator_name", "creator_email", "project", "geospatial_lat_min",
     "geospatial_lat_max", "geospatial_lon_min", "geospatial_lon_max",
     "geospatial_vertical_min", "geospatial_vertical_max",
     "time_coverage_start", "time_coverage_end", "time_coverage_duration",
     "time_coverage_resolution", "platform", "sensor", "spatial_resolution",
     "geospatial_lat_units", "geospatial_lon_units",
     "geospatial_lat_resolution", "geospatial_lon_resolution",
     "key_variables" ]).dedup

/-- `CHUKMetadata.check`: one `("missing_global_attribute", key)` warning
per expected key absent from the dataset attributes; the errors list is
left empty.  The dataset is represented by its attribute mapping. -/
def check (attrs : List (String × String)) :
    List (String × String) × List (String × String) :=
  let warnings :=
    (expected_dataset_metadata_keys.filter
      (fun key => !(dictContains attrs key))).map
      (fun key => ("missing_global_attribute", key))
  (warnings, [])

end CHUKMetadata

/-! ## The dimension check of `CHUKDataSetUtils.check` -/

/-- One `("bad_shape", (dim, actual, expected))` error entry. -/
abbrev ShapeError := String × String × List Nat × List Nat

/-- The `for v in ["x", "y"]` loop of `CHUKDataSetUtils.check`: for each
listed dimension, read `ds[v].shape` and `self.chuk_grid_ds[v].shape`
(a missing variable raises `KeyError`, modelled as `.error`) and append a
`bad_shape` entry when they differ.  Shape mappings stand for the datasets,
dimension name → shape. -/
def CHUKDataSetUtils.check_dims (dims : List String)
    (ds_shapes chuk_grid_shapes : List (String × List Nat)) :
    Except String (List ShapeError) :=
  match dims with
  | [] => .ok []
  | v :: rest =>
    match dictLookup ds_shapes v with
    | none => .error ("KeyError: " ++ v)
    | some actual_shape =>
      match dictLookup chuk_grid_shapes v with
      | none => .error ("KeyError: " ++ v)
      | some expected_shape =>
        match CHUKDataSetUtils.check_dims rest ds_shapes chuk_grid_shapes with
        | .error e => .error e
        | .ok errors =>
          .ok ((if actual_shape ≠ expected_shape then
                  [("bad_shape", v, actual_shape, expected_shape)]
                else []) ++ errors)

/-- The dimension-checking pass of `CHUKDataSetUtils.check`, which runs the
loop over exactly `["x", "y"]`. -/
def CHUKDataSetUtils.check_shapes
    (ds_shapes chuk_grid_shapes : List (String × List Nat)) :
    Except String (List ShapeError) :=
  CHUKDataSetUtils.check_dims ["x", "y"] ds_shapes chuk_grid_shapes

/-! ## `CHUKDataSetUtils.__extend_attrs` and `create_new_dataset` -/

/-- `CHUKDataSetUtils.__extend_attrs`: note the Python condition
`required and value == "" or value is None` parenthesises as
`(required and value == "") or (value is None)`, so a `None` value raises
even when `required` is unset; an empty string raises only when `required`
is set, and otherwise silently skips the key. -/
def CHUKDataSetUtils.extend_attrs (attrs : List (String × String))
    (key : String) (value : Option String) (required : Bool := false) :
    Except String (List (String × String)) :=
  if (required ∧ value = some "") ∨ value = none then
    .error ("attribute " ++ key ++ " is required")
  else if value = some "" ∨ value = none then
    .ok attrs
  else
    .ok (dictInsert attrs key (value.getD ""))

/-- The sequence of `self.__extend_attrs(attrs, key, value, required)`
calls of `CHUKDataSetUtils.create_new_dataset`, in source order, with the
`required` flag of each call (`required=True` for exactly `title`,
`institution`, `tracking_id` and `product_version`; `keywords_vocabulary`
passes an explicit `required=False`; the rest leave the default `None`). -/
def CHUKDataSetUtils.create_new_dataset_attr_spec : List (String × Bool) :=
  [ ("title", true), ("institution", true), ("source", false),
    ("history", false), ("references", false), ("tracking_id", true),
    ("Conventions", false), ("product_version", true),
    ("format_version", false), ("summary", false), ("keywords", false),
    ("id", false), ("naming_authority", false),
    ("keywords_vocabulary", false), ("cdm_data_type", false),
    ("comment", false), ("date_created", false), ("creator_name", false),
    ("creator_url", false), ("creator_email", false), ("project", false),
    ("geospatial_lat_min", false), ("geospatial_lat_max", false),
    ("geospatial_lon_min", false), ("geospatial_lon_max", false),
    ("geospatial_vertical_min", false), ("geospatial_vertical_max", false),
    ("time_coverage_start", false), ("time_coverage_end", false),
    ("time_coverage_duration", false), ("time_coverage_resolution", false),
    ("standard_name_vocabulary", false), ("license", false),
    ("platform", false), ("sensor", false), ("spatial_resolution", false),
    ("geospatial_lat_units", false), ("geospatial_lon_units", false),
    ("geospatial_lon_resolution", false), ("geospatial_lat_resolution", false),
    ("key_variables", false), ("acknowledgement", false),
    ("publisher_name", false), ("publisher_url", false),
    ("publisher_email", false) ]

/-- Run the `__extend_attrs` call sequence of `create_new_dataset` over an
assignment of argument values (each keyword argument may be a string or
`None`), accumulating into the `attrs` dict; a `ValueError` from any call
propagates. -/
def CHUKDataSetUtils.build_attrs (vals : String → Option String) :
    List (String × Bool) → List (String × String) →
    Except String (List (String × String))
  | [], attrs => .ok attrs
  | (key, required) :: rest, attrs =>
    match CHUKDataSetUtils.extend_attrs attrs key (vals key) required with
    | .error e => .error e
    | .ok attrs' => CHUKDataSetUtils.build_attrs vals rest attrs'

/-- The global-attribute assembly of `CHUKDataSetUtils.create_new_dataset`
(the part the claim is about, before `attrs.update(other_attributes)` and
the grid-variable copying). -/
def CHUKDataSetUtils.create_new_dataset_attrs (vals : String → Option String) :
    Except String (List (String × String)) :=
  CHUKDataSetUtils.build_attrs vals CHUKDataSetUtils.create_new_dataset_attr_spec []

/-! ## Supporting lemmas -/

/-- Reading inside the bounds of a `zipWith`. -/
theorem getD_zipWith {α β γ : Type} (f : α → β → γ) (a : List α) (b : List β)
    (i : Nat) (ha : i < a.length) (hb : i < b.length) (da : α) (db : β) (d : γ) :
    (List.zipWith f a b).getD i d = f (a.getD i da) (b.getD i db) := by
  induction a generalizing b i with
  | nil => simp at ha
  | cons x xs ih =>
    cases b with
    | nil => simp at hb
    | cons y ys =>
      cases i with
      | zero => simp [List.getD]
      | succ j =>
        simp only [List.zipWith_cons_cons, List.getD_cons_succ]
        exact ih ys j (by simpa using ha) (by simpa using hb)

/-- Reading inside the bounds of a `map`. -/
theorem getD_map {α β : Type} (f : α → β) (l : List α) (i : Nat)
    (h : i < l.length) (da : α) (d : β) :
    (l.map f).getD i d = f (l.getD i da) := by
  induction l generalizing i with
  | nil => simp at h
  | cons x xs ih =>
    cases i with
    | zero => simp [List.getD]
    | succ j =>
      simp only [List.map_cons, List.getD_cons_succ]
      exact ih j (by simpa using h)

/-- Membership in the fold that concatenates `f` over a token list
(the `for mask_value in ...: keys += ...` loops). -/
theorem mem_foldl_append {α β : Type} (f : β → List α) (l : List β) :
    ∀ (acc : List α) (x : α),
      (x ∈ l.foldl (fun keys mv => keys ++ f mv) acc ↔ x ∈ acc ∨ ∃ t ∈ l, x ∈ f t) := by
  induction l with
  | nil => simp
  | cons b bs ih =>
    intro acc x
    simp only [List.foldl_cons, ih, List.mem_append, List.mem_cons]
    constructor
    · rintro (⟨h | h⟩ | ⟨t, ht, hx⟩)
      · exact .inl h
      · exact .inr ⟨b, .inl rfl, h⟩
      · exact .inr ⟨t, .inr ht, hx⟩
    · rintro (h | ⟨t, (rfl | ht), hx⟩)
      · exact .inl (.inl h)
      · exact .inl (.inr hx)
      · exact .inr ⟨t, ht, hx⟩

/-- Containment as existence of a binding. -/
theorem dictContains_iff {α : Type} (d : List (String × α)) (k : String) :
    dictContains d k = true ↔ ∃ p ∈ d, p.1 = k := by
  simp [dictContains, List.any_eq_true]

/-- Keys after a Python-dict insertion: the inserted key joins the key set,
everything else is untouched. -/
theorem dictContains_dictInsert {α : Type} (d : List (String × α))
    (k k' : String) (v : α) :
    (dictContains (dictInsert d k v) k' = true ↔
      (dictContains d k' = true ∨ k = k')) := by
  by_cases h : d.any (fun p => p.1 == k)
  · rw [dictInsert, if_pos h]
    simp only [dictContains_iff, List.mem_map]
    constructor
    · rintro ⟨q, ⟨p, hp, rfl⟩, hq⟩
      by_cases hpk : p.1 == k
      · right
        simp only [hpk, if_true] at hq
        simpa using hq
      · left
        exact ⟨p, hp, by simpa [hpk] using hq⟩
    · rintro (⟨p, hp, hpk'⟩ | rfl)
      · refine ⟨if p.1 == k then (k, v) else p, ⟨p, hp, rfl⟩, ?_⟩
        by_cases hpk : p.1 == k
        · have : p.1 = k := by simpa using hpk
          simp [hpk, ← this, hpk']
        · simpa [hpk] using hpk'
      · obtain ⟨p, hp, hpk⟩ := List.any_eq_true.mp h
        exact ⟨(k, v), ⟨p, hp, by simp [hpk]⟩, rfl⟩
  · rw [dictInsert, if_neg h]
    simp only [dictContains_iff, List.mem_append, List.mem_singleton]
    constructor
    · rintro ⟨p, (hp | rfl), hpk⟩
      · exact .inl ⟨p, hp, hpk⟩
      · exact .inr hpk
    · rintro (⟨p, hp, hpk⟩ | rfl)
      · exact ⟨p, .inl hp, hpk⟩
      · exact ⟨(k, v), .inr rfl, rfl⟩

/-- The OR-reduction of equally long layers has that common length. -/
theorem reduceOr_length (gs : List (List Bool)) (n : Nat)
    (hne : gs ≠ []) (hlen : ∀ g ∈ gs, g.length = n) :
    (reduceOr gs).length = n := by
  induction gs with
  | nil => exact absurd rfl hne
  | cons g rest ih =>
    cases rest with
    | nil => simpa [reduceOr] using hlen g (by simp)
    | cons g' rest' =>
      have h1 : g.length = n := hlen g (by simp)
      have h2 : (reduceOr (g' :: rest')).length = n :=
        ih (by simp) (fun x hx => hlen x (by simp [hx]))
      simp [reduceOr, h1, h2]

/-- Pointwise value of the OR-reduction: a cell is true iff some layer is
true there. -/
theorem reduceOr_getD (gs : List (List Bool)) (n i : Nat)
    (hne : gs ≠ []) (hlen : ∀ g ∈ gs, g.length = n) (hi : i < n) :
    (reduceOr gs).getD i false = gs.any (fun g => g.getD i false) := by
  induction gs with
  | nil => exact absurd rfl hne
  | cons g rest ih =>
    cases rest with
    | nil => simp [reduceOr]
    | cons g' rest' =>
      have h1 : g.length = n := hlen g (by simp)
      have h2 : (reduceOr (g' :: rest')).length = n :=
        reduceOr_length _ n (by simp) (fun x hx => hlen x (by simp [hx]))
      have step : (reduceOr (g :: g' :: rest')).getD i false =
          (g.getD i false || (reduceOr (g' :: rest')).getD i false) := by
        rw [show reduceOr (g :: g' :: rest') =
              List.zipWith (fun a b => a || b) g (reduceOr (g' :: rest')) from rfl]
        exact getD_zipWith _ g _ i (h1 ▸ hi) (h2 ▸ hi) false false false
      rw [step, ih (by simp) (fun x hx => hlen x (by simp [hx]))]
      simp

/-- The AND-reduction of equally long layers has that common length. -/
theorem reduceAnd_length (gs : List (List Bool)) (n : Nat)
    (hne : gs ≠ []) (hlen : ∀ g ∈ gs, g.length = n) :
    (reduceAnd gs).length = n := by
  induction gs with
  | nil => exact absurd rfl hne
  | cons g rest ih =>
    cases rest with
    | nil => simpa [reduceAnd] using hlen g (by simp)
    | cons g' rest' =>
      have h1 : g.length = n := hlen g (by simp)
      have h2 : (reduceAnd (g' :: rest')).length = n :=
        ih (by simp) (fun x hx => hlen x (by simp [hx]))
      simp [reduceAnd, h1, h2]

/-- Pointwise value of the AND-reduction: a cell is true iff every layer is
true there. -/
theorem reduceAnd_getD (gs : List (List Bool)) (n i : Nat)
    (hne : gs ≠ []) (hlen : ∀ g ∈ gs, g.length = n) (hi : i < n) :
    (reduceAnd gs).getD i false = gs.all (fun g => g.getD i false) := by
  induction gs with
  | nil => exact absurd rfl hne
  | cons g rest ih =>
    cases rest with
    | nil => simp [reduceAnd]
    | cons g' rest' =>
      have h1 : g.length = n := hlen g (by simp)
      have h2 : (reduceAnd (g' :: rest')).length = n :=
        reduceAnd_length _ n (by simp) (fun x hx => hlen x (by simp [hx]))
      have step : (reduceAnd (g :: g' :: rest')).getD i false =
          (g.getD i false && (reduceAnd (g' :: rest')).getD i false) := by
        rw [show reduceAnd (g :: g' :: rest') =
              List.zipWith (fun a b => a && b) g (reduceAnd (g' :: rest')) from rfl]
        exact getD_zipWith _ g _ i (h1 ▸ hi) (h2 ▸ hi) false false false
      rw [step, ih (by simp) (fun x hx => hlen x (by simp [hx]))]
      simp

/-- `array.sum()` on booleans counts the true cells exactly. -/
theorem mask_sum_eq_count (g : BGrid) : mask_sum g = g.data.count true := by
  unfold mask_sum
  suffices h : ∀ (l : List Bool) (n : Nat),
      l.foldl (fun acc b => acc + (if b then 1 else 0)) n = n + l.count true by
    simpa using h g.data 0
  intro l
  induction l with
  | nil => simp
  | cons b bs ih =>
    intro n
    cases b <;> simp [ih, List.count_cons] <;> omega

/-- The `count *= d` loop computes the product of the dimension sizes. -/
theorem foldl_mul_eq_prod (l : List Nat) :
    l.foldl (fun count d => count * d) 1 = l.prod := by
  suffices h : ∀ (n : Nat), l.foldl (fun count d => count * d) n = n * l.prod by
    simpa using h 1
  induction l with
  | nil => simp
  | cons d ds ih =>
    intro n
    simp [ih, List.prod_cons, Nat.mul_assoc]

/-! ## The claims -/

/-- C4: resolving a category token: an exact category name resolves to
itself alone; otherwise every category name matching the token as a
shell glob is returned, in the raster's declared (dict insertion) order;
on the land-cover example, `"*woodland"` resolves to exactly the two
woodland categories in declaration order. -/
theorem C4_category_token_resolution (value_lookup : List (String × Int))
    (token : String) :
    (dictContains value_lookup token = true →
       CHUKAuxilaryDataMask.get_matching_keys value_lookup token = [token]) ∧
    (dictContains value_lookup token = false →
       CHUKAuxilaryDataMask.get_matching_keys value_lookup token =
         (dictKeys value_lookup).filter (fun key => fnmatch key token)) ∧
    CHUKAuxilaryDataMask.get_matching_keys
      [("No_data", 0), ("Deciduous_woodland", 1), ("Coniferous_woodland", 2),
       ("Urban", 3), ("Suburban", 4)] "*woodland" =
      ["Deciduous_woodland", "Coniferous_woodland"] := by
  refine ⟨fun h => ?_, fun h => ?_, by decide⟩
  · simp [CHUKAuxilaryDataMask.get_matching_keys, h]
  · simp [CHUKAuxilaryDataMask.get_matching_keys, h]

/-- Witness for C4 on concrete inputs: exact-token, pattern-token and the
land-cover example. -/
theorem C4_category_token_resolution_witness :
    CHUKAuxilaryDataMask.get_matching_keys
        [("No_data", 0), ("Urban", 3)] "Urban" = ["Urban"] ∧
    CHUKAuxilaryDataMask.get_matching_keys
        [("No_data", 0), ("Urban", 3)] "Urb*" =
      (dictKeys [("No_data", (0 : Int)), ("Urban", 3)]).filter
        (fun key => fnmatch key "Urb*") ∧
    CHUKAuxilaryDataMask.get_matching_keys
      [("No_data", 0), ("Deciduous_woodland", 1), ("Coniferous_woodland", 2),
       ("Urban", 3), ("Suburban", 4)] "*woodland" =
      ["Deciduous_woodland", "Coniferous_woodland"] :=
  ⟨(C4_category_token_resolution [("No_data", 0), ("Urban", 3)] "Urban").1
      (by decide),
   (C4_category_token_resolution [("No_data", 0), ("Urban", 3)] "Urb*").2.1
      (by decide),
   (C4_category_token_resolution [] "").2.2⟩

/-- C5: `CHUKAuxilaryDataCombinedMask` construction raises `ValueError`
exactly when the child list is empty, the operator is unknown, or the
operator is `"not"` with more than one child; in every other case it
succeeds with the given children and operator. -/
theorem C5_combined_mask_init_errors (masks : List MaskT) (operator : String) :
    ((∃ e, CHUKAuxilaryDataCombinedMask.init masks operator = .error e) ↔
      (masks.length = 0 ∨
        (operator ≠ "and" ∧ operator ≠ "or" ∧ operator ≠ "not") ∨
        (operator = "not" ∧ masks.length > 1))) ∧
    (¬(masks.length = 0 ∨
        (operator ≠ "and" ∧ operator ≠ "or" ∧ operator ≠ "not") ∨
        (operator = "not" ∧ masks.length > 1)) →
      CHUKAuxilaryDataCombinedMask.init masks operator =
        .ok (MaskT.comb masks operator)) := by
  unfold CHUKAuxilaryDataCombinedMask.init
  by_cases h0 : masks.length = 0
  · simp [h0]
  · by_cases h1 : operator = "and" ∨ operator = "or" ∨ operator = "not"
    · by_cases h2 : operator = "not" ∧ masks.length > 1
      · simp [h0, h1, h2]
      · simp [h0, h1, h2]
        tauto
    · simp [h0, h1]
      tauto

/-- Witness for C5: with one leaf child, the empty child list and a
two-child `"not"` both fail, while a two-child `"or"` succeeds. -/
theorem C5_combined_mask_init_errors_witness :
    (∃ e, CHUKAuxilaryDataCombinedMask.init [] "or" = .error e) ∧
    (∃ e, CHUKAuxilaryDataCombinedMask.init
        [MaskT.leaf (CHUKAuxilaryDataMask.init ⟨[1], [some 0]⟩ "a" [0]),
         MaskT.leaf (CHUKAuxilaryDataMask.init ⟨[1], [some 0]⟩ "a" [0])]
        "not" = .error e) ∧
    CHUKAuxilaryDataCombinedMask.init
        [MaskT.leaf (CHUKAuxilaryDataMask.init ⟨[1], [some 0]⟩ "a" [0]),
         MaskT.leaf (CHUKAuxilaryDataMask.init ⟨[1], [some 0]⟩ "a" [0])]
        "or" =
      .ok (MaskT.comb
        [MaskT.leaf (CHUKAuxilaryDataMask.init ⟨[1], [some 0]⟩ "a" [0]),
         MaskT.leaf (CHUKAuxilaryDataMask.init ⟨[1], [some 0]⟩ "a" [0])]
        "or") :=
  ⟨(C5_combined_mask_init_errors [] "or").1.mpr (by simp),
   (C5_combined_mask_init_errors _ "not").1.mpr (by right; right; simp),
   (C5_combined_mask_init_errors _ "or").2 (by simp)⟩

/-- C1: `CHUKAuxilaryDataCombinedMask.to_array` over children that
evaluate to boolean grids of one common shape: `"not"` yields the
elementwise complement of the single child's grid (same shape); `"or"`
yields the elementwise disjunction (a cell is true iff some child's grid
is true there); `"and"` the elementwise conjunction (true iff every
child's grid is true there). -/
theorem C1_combined_to_array_pointwise (arrs : List BGrid) (s : List Nat)
    (n : Nat) (hsh : ∀ g ∈ arrs, g.shape = s)
    (hlen : ∀ g ∈ arrs, g.data.length = n) :
    (∀ g, arrs = [g] →
      ∃ r, combined_to_array "not" arrs = some r ∧ r.shape = s ∧
        r.data.length = n ∧
        ∀ i, i < n → r.data.getD i false = !(g.data.getD i false)) ∧
    (arrs ≠ [] →
      ∃ r, combined_to_array "or" arrs = some r ∧ r.shape = s ∧
        r.data.length = n ∧
        ∀ i, i < n →
          (r.data.getD i false = true ↔
            ∃ g ∈ arrs, g.data.getD i false = true)) ∧
    (arrs ≠ [] →
      ∃ r, combined_to_array "and" arrs = some r ∧ r.shape = s ∧
        r.data.length = n ∧
        ∀ i, i < n →
          (r.data.getD i false = true ↔
            ∀ g ∈ arrs, g.data.getD i false = true)) := by
  refine ⟨?_, ?_, ?_⟩
  · rintro g rfl
    refine ⟨_, rfl, hsh g (by simp), by simpa using hlen g (by simp), ?_⟩
    intro i hi
    have hg : i < g.data.length := by rw [hlen g (by simp)]; exact hi
    rw [getD_map _ _ i hg false false]
    cases g.data.getD i false <;> rfl
  · intro hne
    obtain ⟨g, gs, rfl⟩ := List.exists_cons_of_ne_nil hne
    have hds : ∀ d ∈ g.data :: gs.map (fun x => x.data), d.length = n := by
      intro d hd
      rcases List.mem_cons.mp hd with rfl | hd
      · exact hlen g (by simp)
      · obtain ⟨x, hx, rfl⟩ := List.mem_map.mp hd
        exact hlen x (by simp [hx])
    refine ⟨_, rfl, hsh g (by simp),
      reduceOr_length _ n (by simp) hds, ?_⟩
    intro i hi
    rw [reduceOr_getD _ n i (by simp) hds hi]
    constructor
    · intro h
      obtain ⟨d, hd, hdi⟩ := List.any_eq_true.mp h
      rcases List.mem_cons.mp hd with rfl | hd
      · exact ⟨g, by simp, hdi⟩
      · obtain ⟨x, hx, rfl⟩ := List.mem_map.mp hd
        exact ⟨x, by simp [hx], hdi⟩
    · rintro ⟨x, hx, hxi⟩
      refine List.any_eq_true.mpr ⟨x.data, ?_, hxi⟩
      rcases List.mem_cons.mp hx with rfl | hx
      · simp
      · exact List.mem_cons.mpr (.inr (List.mem_map.mpr ⟨x, hx, rfl⟩))
  · intro hne
    obtain ⟨g, gs, rfl⟩ := List.exists_cons_of_ne_nil hne
    have hds : ∀ d ∈ g.data :: gs.map (fun x => x.data), d.length = n := by
      intro d hd
      rcases List.mem_cons.mp hd with rfl | hd
      · exact hlen g (by simp)
      · obtain ⟨x, hx, rfl⟩ := List.mem_map.mp hd
        exact hlen x (by simp [hx])
    refine ⟨_, rfl, hsh g (by simp),
      reduceAnd_length _ n (by simp) hds, ?_⟩
    intro i hi
    rw [reduceAnd_getD _ n i (by simp) hds hi]
    constructor
    · intro h x hx
      have := List.all_eq_true.mp h x.data
      rcases List.mem_cons.mp hx with rfl | hx
      · exact this (by simp)
      · exact this (List.mem_cons.mpr (.inr (List.mem_map.mpr ⟨x, hx, rfl⟩)))
    · intro h
      refine List.all_eq_true.mpr ?_
      intro d hd
      rcases List.mem_cons.mp hd with rfl | hd
      · exact h g (by simp)
      · obtain ⟨x, hx, rfl⟩ := List.mem_map.mp hd
        exact h x (by simp [hx])

/-- Witness for C1, over the spec's worked example grids
`m1 = [[T,T],[F,F]]` and `m2 = [[T,F],[T,F]]` flattened. -/
theorem C1_combined_to_array_pointwise_witness :
    (∃ r, combined_to_array "not"
        [BGrid.mk [2, 2] [true, true, false, false]] = some r ∧
      r.shape = [2, 2] ∧ r.data.length = 4 ∧
      ∀ i, i < 4 → r.data.getD i false =
        !((BGrid.mk [2, 2] [true, true, false, false]).data.getD i false)) ∧
    (∃ r, combined_to_array "or"
        [BGrid.mk [2, 2] [true, true, false, false],
         BGrid.mk [2, 2] [true, false, true, false]] = some r ∧
      r.shape = [2, 2] ∧ r.data.length = 4 ∧
      ∀ i, i < 4 →
        (r.data.getD i false = true ↔
          ∃ g ∈ [BGrid.mk [2, 2] [true, true, false, false],
                 BGrid.mk [2, 2] [true, false, true, false]],
            g.data.getD i false = true)) ∧
    (∃ r, combined_to_array "and"
        [BGrid.mk [2, 2] [true, true, false, false],
         BGrid.mk [2, 2] [true, false, true, false]] = some r ∧
      r.shape = [2, 2] ∧ r.data.length = 4 ∧
      ∀ i, i < 4 →
        (r.data.getD i false = true ↔
          ∀ g ∈ [BGrid.mk [2, 2] [true, true, false, false],
                 BGrid.mk [2, 2] [true, false, true, false]],
            g.data.getD i false = true)) :=
  ⟨(C1_combined_to_array_pointwise
      [BGrid.mk [2, 2] [true, true, false, false]] [2, 2] 4
      (by decide) (by decide)).1 _ rfl,
   (C1_combined_to_array_pointwise
      [BGrid.mk [2, 2] [true, true, false, false],
       BGrid.mk [2, 2] [true, false, true, false]] [2, 2] 4
      (by decide) (by decide)).2.1 (by decide),
   (C1_combined_to_array_pointwise
      [BGrid.mk [2, 2] [true, true, false, false],
       BGrid.mk [2, 2] [true, false, true, false]] [2, 2] 4
      (by decide) (by decide)).2.2 (by decide)⟩

/-- C7: for every mask tree that evaluates, `count` is exactly the number
of true cells of `to_array` (an exact integer) and `fraction` is `count`
divided by the product of every dimension size of the grid's shape
(all axes included). -/
theorem C7_count_and_fraction (m : MaskT) (g : BGrid)
    (h : MaskT.to_array m = some g) :
    MaskT.count m = some (g.data.count true) ∧
    MaskT.fraction m = some ((g.data.count true : ℚ) / (g.shape.prod : ℚ)) := by
  unfold MaskT.count MaskT.fraction
  rw [h]
  simp [mask_sum_eq_count, foldl_mul_eq_prod]

/-- The set of codes selected by a fresh leaf-mask evaluation: a value is
in `filter_values` iff some selected token resolves to a category name
whose code it is. -/
theorem mem_filter_values (m : CHUKAuxilaryDataMask) (v : Int) :
    ((m.mask_values.foldl
        (fun keys mv => keys ++ CHUKAuxilaryDataMask.get_matching_keys m.value_lookup mv)
        []).filterMap (fun key => dictLookup m.value_lookup key)).contains v = true ↔
      ∃ token ∈ m.mask_values,
        ∃ name ∈ CHUKAuxilaryDataMask.get_matching_keys m.value_lookup token,
          dictLookup m.value_lookup name = some v := by
  rw [List.contains_iff_exists_mem_beq]
  constructor
  · rintro ⟨v', hv', hbeq⟩
    have hv'v : v = v' := by simpa using hbeq
    subst hv'v
    obtain ⟨name, hname, hlook⟩ := List.mem_filterMap.mp hv'
    obtain ⟨token, htoken, hmem⟩ :=
      ((mem_foldl_append _ m.mask_values [] name).mp hname).resolve_left
        (by simp)
    exact ⟨token, htoken, name, hmem, hlook⟩
  · rintro ⟨token, htoken, name, hname, hlook⟩
    refine ⟨v, List.mem_filterMap.mpr ⟨name, ?_, hlook⟩, by simp⟩
    exact (mem_foldl_append _ m.mask_values [] name).mpr
      (.inr ⟨token, htoken, hname⟩)

/-- Shape and length preservation of a fresh leaf-mask evaluation. -/
theorem evaluate_shape (m : CHUKAuxilaryDataMask) :
    (CHUKAuxilaryDataMask.evaluate m).shape = m.da.shape ∧
    (CHUKAuxilaryDataMask.evaluate m).data.length = m.da.data.length := by
  unfold CHUKAuxilaryDataMask.evaluate
  refine ⟨rfl, ?_⟩
  by_cases him : m.include_missing = true <;> simp [him]

/-- Pointwise value of a fresh leaf-mask evaluation. -/
theorem evaluate_getD (m : CHUKAuxilaryDataMask) (i : Nat)
    (hi : i < m.da.data.length) :
    ((CHUKAuxilaryDataMask.evaluate m).data.getD i false = true ↔
      ((∃ v, m.da.data.getD i none = some v ∧
          ∃ token ∈ m.mask_values,
            ∃ name ∈ CHUKAuxilaryDataMask.get_matching_keys m.value_lookup token,
              dictLookup m.value_lookup name = some v) ∨
        (m.include_missing = true ∧ m.da.data.getD i none = none))) := by
  unfold CHUKAuxilaryDataMask.evaluate
  dsimp only
  by_cases him : m.include_missing = true
  · rw [if_pos him]
    rw [getD_zipWith _ m.da.data _ i hi (by simpa using hi) none false false]
    rw [getD_map _ m.da.data i hi none false]
    cases hcell : m.da.data.getD i none with
    | none => simp [him]
    | some v =>
      simp only [Option.isNone_some, Bool.false_eq_true, if_false]
      rw [mem_filter_values m v]
      simp
  · rw [if_neg him]
    rw [getD_map _ m.da.data i hi none false]
    cases hcell : m.da.data.getD i none with
    | none => simp [him]
    | some v =>
      rw [mem_filter_values m v]
      simp [him]

/-- C2: for a leaf mask with an empty cache, `to_array` is true exactly at
cells whose raster code is a code of a category resolved from some
selection token, with missing (NaN) cells additionally forced true when
`include_missing` is enabled; the grid keeps the raster's shape. -/
theorem C2_leaf_to_array_fresh (m : CHUKAuxilaryDataMask)
    (h : m.cached_result = none) (i : Nat) (hi : i < m.da.data.length) :
    (m.to_array).1.shape = m.da.shape ∧
    (m.to_array).1.data.length = m.da.data.length ∧
    ((m.to_array).1.data.getD i false = true ↔
      ((∃ v, m.da.data.getD i none = some v ∧
          ∃ token ∈ m.mask_values,
            ∃ name ∈ CHUKAuxilaryDataMask.get_matching_keys m.value_lookup token,
              dictLookup m.value_lookup name = some v) ∨
        (m.include_missing = true ∧ m.da.data.getD i none = none))) := by
  have harr : (m.to_array).1 = CHUKAuxilaryDataMask.evaluate m := by
    unfold CHUKAuxilaryDataMask.to_array
    rw [h]
  rw [harr]
  exact ⟨(evaluate_shape m).1, (evaluate_shape m).2, evaluate_getD m i hi⟩

/-- Witness for C2 on a 2×2 raster with a NaN cell and `include_missing`
enabled: the NaN cell is forced true, the selected-code cells are true. -/
theorem C2_leaf_to_array_fresh_witness :
    ((CHUKAuxilaryDataMask.to_array
        { CHUKAuxilaryDataMask.init
            ⟨[2, 2], [some 1, some 2, none, some 1]⟩ "urban rural" [1, 2] true with
          mask_values := ["urban"] }).1.shape = [2, 2] ∧
      (CHUKAuxilaryDataMask.to_array
        { CHUKAuxilaryDataMask.init
            ⟨[2, 2], [some 1, some 2, none, some 1]⟩ "urban rural" [1, 2] true with
          mask_values := ["urban"] }).1.data.length = 4 ∧
      ((CHUKAuxilaryDataMask.to_array
          { CHUKAuxilaryDataMask.init
              ⟨[2, 2], [some 1, some 2, none, some 1]⟩ "urban rural" [1, 2] true with
            mask_values := ["urban"] }).1.data.getD 2 false = true ↔
        ((∃ v, ([some 1, some 2, none, some (1 : Int)]).getD 2 none = some v ∧
            ∃ token ∈ ["urban"],
              ∃ name ∈ CHUKAuxilaryDataMask.get_matching_keys
                  [("urban", 1), ("rural", 2)] token,
                dictLookup [("urban", (1 : Int)), ("rural", 2)] name = some v) ∨
          (true = true ∧ ([some 1, some 2, none, some (1 : Int)]).getD 2 none = none)))) :=
  C2_leaf_to_array_fresh
    { CHUKAuxilaryDataMask.init
        ⟨[2, 2], [some 1, some 2, none, some 1]⟩ "urban rural" [1, 2] true with
      mask_values := ["urban"] } rfl 2 (by decide)

/-- C3: the leaf-mask cache invariant: construction leaves the cache
empty; a successful `add_mask_value` returns a state whose cache is
cleared and whose selection gained the token; `to_array` populates the
cache with exactly the grid it returns; a repeated `to_array` returns the
identical cached grid and state; and a `to_array` after `add_mask_value`
re-evaluates from the updated selection. -/
theorem C3_cache_invariant (da : Grid) (fm : String) (fv : List Int)
    (im : Bool) (m m' : CHUKAuxilaryDataMask) (x : String)
    (mk : List String) :
    (CHUKAuxilaryDataMask.init da fm fv im).cached_result = none ∧
    (m.add_mask_value x = .ok (mk, m') →
      m'.cached_result = none ∧ m'.mask_values = m.mask_values ++ [x]) ∧
    ((m.to_array).2.cached_result = some (m.to_array).1) ∧
    ((m.to_array).2.to_array = m.to_array) ∧
    (m.add_mask_value x = .ok (mk, m') →
      m'.to_array = (CHUKAuxilaryDataMask.evaluate m',
        { m' with cached_result := some (CHUKAuxilaryDataMask.evaluate m') })) := by
  refine ⟨rfl, ?_, ?_, ?_, ?_⟩
  · intro hadd
    unfold CHUKAuxilaryDataMask.add_mask_value at hadd
    by_cases hlen :
        (CHUKAuxilaryDataMask.get_matching_keys m.value_lookup x).length = 0
    · rw [if_pos hlen] at hadd
      exact absurd hadd (by simp)
    · rw [if_neg hlen] at hadd
      injection hadd with h
      injection h with h1 h2
      subst h2
      exact ⟨rfl, rfl⟩
  · cases hc : m.cached_result with
    | some g =>
      have harr : m.to_array = (g, m) := by
        unfold CHUKAuxilaryDataMask.to_array
        rw [hc]
      rw [harr]
      exact hc
    | none =>
      have harr : m.to_array = (CHUKAuxilaryDataMask.evaluate m,
          { m with cached_result := some (CHUKAuxilaryDataMask.evaluate m) }) := by
        unfold CHUKAuxilaryDataMask.to_array
        rw [hc]
      rw [harr]
  · cases hc : m.cached_result with
    | some g =>
      have harr : m.to_array = (g, m) := by
        unfold CHUKAuxilaryDataMask.to_array
        rw [hc]
      rw [harr]
      exact harr
    | none =>
      have harr : m.to_array = (CHUKAuxilaryDataMask.evaluate m,
          { m with cached_result := some (CHUKAuxilaryDataMask.evaluate m) }) := by
        unfold CHUKAuxilaryDataMask.to_array
        rw [hc]
      rw [harr]
      rfl
  · intro hadd
    unfold CHUKAuxilaryDataMask.add_mask_value at hadd
    by_cases hlen :
        (CHUKAuxilaryDataMask.get_matching_keys m.value_lookup x).length = 0
    · rw [if_pos hlen] at hadd
      exact absurd hadd (by simp)
    · rw [if_neg hlen] at hadd
      injection hadd with h
      injection h with h1 h2
      subst h2
      rfl

/-- Witness for C3 on a concrete leaf mask: a fresh mask, a successful
`add_mask_value "urban"`, and the resulting `to_array` behavior. -/
theorem C3_cache_invariant_witness :
    (CHUKAuxilaryDataMask.init
      ⟨[2, 2], [some 1, some 2, none, some 1]⟩ "urban rural" [1, 2] false).cached_result
        = none ∧
    (({ CHUKAuxilaryDataMask.init
          ⟨[2, 2], [some 1, some 2, none, some 1]⟩ "urban rural" [1, 2] false with
        mask_values := ["urban"] }).cached_result = none ∧
      ({ CHUKAuxilaryDataMask.init
          ⟨[2, 2], [some 1, some 2, none, some 1]⟩ "urban rural" [1, 2] false with
        mask_values := ["urban"] }).mask_values = [] ++ ["urban"]) := by
  have h := C3_cache_invariant
    ⟨[2, 2], [some 1, some 2, none, some 1]⟩ "urban rural" [1, 2] false
    (CHUKAuxilaryDataMask.init
      ⟨[2, 2], [some 1, some 2, none, some 1]⟩ "urban rural" [1, 2] false)
    ({ CHUKAuxilaryDataMask.init
        ⟨[2, 2], [some 1, some 2, none, some 1]⟩ "urban rural" [1, 2] false with
      mask_values := ["urban"] }) "urban" ["urban"]
  exact ⟨h.1, h.2.1 (by decide)⟩

/-- Witness for C7 on a negated two-by-two leaf mask: two of the four
cells are true, so `count = 2` and `fraction = 2 / 4`. -/
theorem C7_count_and_fraction_witness :
    MaskT.count (MaskT.comb
        [MaskT.leaf { CHUKAuxilaryDataMask.init
            ⟨[2, 2], [some 1, some 2, none, some 1]⟩ "urban rural" [1, 2] with
          mask_values := ["urban"] }] "not") =
      some ((BGrid.mk [2, 2] [false, true, true, false]).data.count true) ∧
    MaskT.fraction (MaskT.comb
        [MaskT.leaf { CHUKAuxilaryDataMask.init
            ⟨[2, 2], [some 1, some 2, none, some 1]⟩ "urban rural" [1, 2] with
          mask_values := ["urban"] }] "not") =
      some (((BGrid.mk [2, 2] [false, true, true, false]).data.count true : ℚ) /
        ((BGrid.mk [2, 2] [false, true, true, false]).shape.prod : ℚ)) :=
  C7_count_and_fraction _ (BGrid.mk [2, 2] [false, true, true, false]) rfl

/-- C8: for every attribute mapping, `CHUKMetadata.check` returns an empty
errors list and a warnings list in which `("missing_global_attribute", k)`
occurs exactly once for each expected key `k` absent from the attributes,
and no other entry occurs (this also shows the check is a pure function of
the attribute mapping: it neither raises nor mutates). -/
theorem count_map_pair (c0 d : String) (l : List String) :
    (l.map (fun k => (c0, k))).count (c0, d) = l.count d := by
  induction l with
  | nil => rfl
  | cons k ks ih => simp [List.count_cons, ih]

/-- Counting in a list with no duplicates is membership. -/
theorem count_nodup_strings (l : List String) (hn : l.Nodup) (d : String) :
    l.count d = if d ∈ l then 1 else 0 := by
  induction l with
  | nil => rfl
  | cons k ks ih =>
    have hk : k ∉ ks := (List.nodup_cons.mp hn).1
    rw [List.count_cons, ih (List.nodup_cons.mp hn).2]
    by_cases hdk : d = k
    · subst hdk
      simp [hk]
    · simp [hdk, Ne.symm hdk]

/-- C8: for every attribute mapping, `CHUKMetadata.check` returns an empty
errors list and a warnings list in which `("missing_global_attribute", k)`
occurs exactly once for each expected key `k` absent from the attributes,
and no other entry occurs (this also shows the check is a pure function of
the attribute mapping: it neither raises nor mutates). -/
theorem C8_metadata_check (attrs : List (String × String)) (c d : String) :
    (CHUKMetadata.check attrs).2 = [] ∧
    (CHUKMetadata.check attrs).1.count (c, d) =
      (if c = "missing_global_attribute" ∧
          d ∈ CHUKMetadata.expected_dataset_metadata_keys ∧
          dictContains attrs d = false then 1 else 0) := by
  refine ⟨rfl, ?_⟩
  show (((CHUKMetadata.expected_dataset_metadata_keys.filter
      (fun key => !(dictContains attrs key))).map
      (fun key => ("missing_global_attribute", key))).count (c, d)) = _
  by_cases hc : c = "missing_global_attribute"
  · subst hc
    rw [count_map_pair]
    have hnodup : (CHUKMetadata.expected_dataset_metadata_keys.filter
        (fun key => !(dictContains attrs key))).Nodup :=
      (List.nodup_dedup _).filter _
    rw [count_nodup_strings _ hnodup d]
    by_cases hd : d ∈ CHUKMetadata.expected_dataset_metadata_keys ∧
        dictContains attrs d = false
    · rw [if_pos (List.mem_filter.mpr ⟨hd.1, by simp [hd.2]⟩), if_pos ⟨rfl, hd⟩]
    · rw [if_neg (fun hmem => hd ⟨(List.mem_filter.mp hmem).1,
        by simpa using (List.mem_filter.mp hmem).2⟩),
        if_neg (fun h => hd h.2)]
  · rw [List.count_eq_zero.mpr, if_neg (fun h => hc h.1)]
    intro hmem
    obtain ⟨k, -, hk⟩ := List.mem_map.mp hmem
    exact hc (by injection hk.symm)

/-- C9 counterexample: the shape-checking pass of `CHUKDataSetUtils.check`
only examines `x` and `y`.  On mappings sharing a `time` dimension whose
shapes differ (4 vs 5), it reports no `bad_shape` entry at all, refuting
the claim that an entry is appended whenever a dimension present in both
mappings has differing shapes. -/
theorem C9_counterexample_shared_dim_ignored :
    CHUKDataSetUtils.check_shapes
        [("x", [1294]), ("y", [1500]), ("time", [4])]
        [("x", [1294]), ("y", [1500]), ("time", [5])] = .ok [] ∧
    dictLookup [("x", [1294]), ("y", [1500]), ("time", [4])] "time" = some [4] ∧
    dictLookup [("x", [1294]), ("y", [1500]), ("time", [5])] "time" = some [5] ∧
    ([4] : List Nat) ≠ [5] := by
  refine ⟨by decide, by decide, by decide, by decide⟩

/-- C9 (amended): the pass examines exactly the dimensions `x` and `y`:
when both are present in both mappings it returns a `bad_shape` entry for
each of them whose shapes differ (in the order `x` then `y`) and nothing
else — other dimensions are never compared; when `x` is absent from the
dataset the pass fails with a `KeyError` instead of skipping it. -/
theorem C9_check_shapes_x_y_only (ds grid : List (String × List Nat)) :
    (∀ ax ay gx gy, dictLookup ds "x" = some ax →
      dictLookup ds "y" = some ay →
      dictLookup grid "x" = some gx →
      dictLookup grid "y" = some gy →
      CHUKDataSetUtils.check_shapes ds grid =
        .ok ((if ax ≠ gx then [("bad_shape", "x", ax, gx)] else []) ++
          (if ay ≠ gy then [("bad_shape", "y", ay, gy)] else []))) ∧
    (dictLookup ds "x" = none →
      CHUKDataSetUtils.check_shapes ds grid = .error "KeyError: x") := by
  constructor
  · intro ax ay gx gy hax hay hgx hgy
    simp [CHUKDataSetUtils.check_shapes, CHUKDataSetUtils.check_dims,
      hax, hay, hgx, hgy]
  · intro hax
    simp [CHUKDataSetUtils.check_shapes, CHUKDataSetUtils.check_dims, hax]

/-- Witness for C9 (amended): a differing `x` shape yields exactly the
`x` entry; a dataset without `x` makes the pass fail. -/
theorem C9_check_shapes_x_y_only_witness :
    CHUKDataSetUtils.check_shapes [("x", [10]), ("y", [20])]
        [("x", [11]), ("y", [20])] =
      .ok ((if ([10] : List Nat) ≠ [11] then [("bad_shape", "x", [10], [11])] else []) ++
        (if ([20] : List Nat) ≠ [20] then [("bad_shape", "y", [20], [20])] else [])) ∧
    CHUKDataSetUtils.check_shapes [("y", [20])] [("x", [11]), ("y", [20])] =
      .error "KeyError: x" :=
  ⟨(C9_check_shapes_x_y_only [("x", [10]), ("y", [20])]
      [("x", [11]), ("y", [20])]).1 [10] [20] [11] [20]
      (by decide) (by decide) (by decide) (by decide),
   (C9_check_shapes_x_y_only [("y", [20])] [("x", [11]), ("y", [20])]).2
      (by decide)⟩

/-- When some listed attribute receives `None`, or some required attribute
receives the empty string, the `__extend_attrs` sequence raises. -/
theorem build_attrs_error (vals : String → Option String) :
    ∀ (l : List (String × Bool)) (attrs : List (String × String)),
      (∃ p ∈ l, vals p.1 = none ∨ (p.2 = true ∧ vals p.1 = some "")) →
      ∃ e, CHUKDataSetUtils.build_attrs vals l attrs = .error e := by
  intro l
  induction l with
  | nil => simp
  | cons p rest ih =>
    intro attrs hbad
    obtain ⟨q, hq, hqbad⟩ := hbad
    rcases List.mem_cons.mp hq with rfl | hq
    · have hext : CHUKDataSetUtils.extend_attrs attrs q.1 (vals q.1) q.2 =
          .error ("attribute " ++ q.1 ++ " is required") := by
        unfold CHUKDataSetUtils.extend_attrs
        rw [if_pos (by tauto)]
      refine ⟨"attribute " ++ q.1 ++ " is required", ?_⟩
      unfold CHUKDataSetUtils.build_attrs
      rw [hext]
    · cases hext : CHUKDataSetUtils.extend_attrs attrs p.1 (vals p.1) p.2 with
      | error e =>
        refine ⟨e, ?_⟩
        unfold CHUKDataSetUtils.build_attrs
        rw [hext]
      | ok attrs' =>
        obtain ⟨e, he⟩ := ih attrs' ⟨q, hq, hqbad⟩
        refine ⟨e, ?_⟩
        unfold CHUKDataSetUtils.build_attrs
        rw [hext]
        exact he

/-- When no listed attribute receives `None` and no required one receives
the empty string, the `__extend_attrs` sequence succeeds, and the
assembled keys are exactly the starting keys plus the listed keys whose
value is non-empty. -/
theorem build_attrs_ok (vals : String → Option String) :
    ∀ (l : List (String × Bool)) (attrs : List (String × String)),
      (∀ p ∈ l, ¬(vals p.1 = none ∨ (p.2 = true ∧ vals p.1 = some ""))) →
      ∃ attrs', CHUKDataSetUtils.build_attrs vals l attrs = .ok attrs' ∧
        ∀ k, (dictContains attrs' k = true ↔
          (dictContains attrs k = true ∨ ∃ p ∈ l, p.1 = k ∧ vals p.1 ≠ some "")) := by
  intro l
  induction l with
  | nil =>
    intro attrs _
    exact ⟨attrs, rfl, fun k => by simp⟩
  | cons p rest ih =>
    intro attrs hgood
    have hp := hgood p (by simp)
    cases hv : vals p.1 with
    | none => exact absurd (.inl hv) hp
    | some v =>
      by_cases hve : v = ""
      · subst hve
        have hp2 : p.2 = false := by
          cases h2 : p.2
          · rfl
          · exact absurd (.inr ⟨h2, hv⟩) hp
        have hext : CHUKDataSetUtils.extend_attrs attrs p.1 (vals p.1) p.2 =
            .ok attrs := by
          unfold CHUKDataSetUtils.extend_attrs
          rw [if_neg (by simp [hv, hp2]), if_pos (by simp [hv])]
        obtain ⟨attrs', hok, hchar⟩ :=
          ih attrs (fun q hq => hgood q (by simp [hq]))
        refine ⟨attrs', ?_, ?_⟩
        · unfold CHUKDataSetUtils.build_attrs
          rw [hext]
          exact hok
        · intro k
          rw [hchar k]
          constructor
          · rintro (h | ⟨q, hq, hqk, hqv⟩)
            · exact .inl h
            · exact .inr ⟨q, by simp [hq], hqk, hqv⟩
          · rintro (h | ⟨q, hq, hqk, hqv⟩)
            · exact .inl h
            · rcases List.mem_cons.mp hq with rfl | hq
              · exact absurd hv (by simpa using hqv)
              · exact .inr ⟨q, hq, hqk, hqv⟩
      · have hext : CHUKDataSetUtils.extend_attrs attrs p.1 (vals p.1) p.2 =
            .ok (dictInsert attrs p.1 v) := by
          unfold CHUKDataSetUtils.extend_attrs
          rw [if_neg (by simp [hv, hve]), if_neg (by simp [hv, hve])]
          rw [hv]
          rfl
        obtain ⟨attrs', hok, hchar⟩ :=
          ih (dictInsert attrs p.1 v) (fun q hq => hgood q (by simp [hq]))
        refine ⟨attrs', ?_, ?_⟩
        · unfold CHUKDataSetUtils.build_attrs
          rw [hext]
          exact hok
        · intro k
          rw [hchar k]
          rw [show (dictContains (dictInsert attrs p.1 v) k = true) ↔
              (dictContains attrs k = true ∨ p.1 = k) from
            dictContains_dictInsert attrs p.1 k v]
          constructor
          · rintro ((h | rfl) | ⟨q, hq, hqk, hqv⟩)
            · exact .inl h
            · exact .inr ⟨p, by simp, rfl, by simp [hv, hve]⟩
            · exact .inr ⟨q, by simp [hq], hqk, hqv⟩
          · rintro (h | ⟨q, hq, hqk, hqv⟩)
            · exact .inl (.inl h)
            · rcases List.mem_cons.mp hq with rfl | hq
              · exact .inl (.inr hqk)
              · exact .inr ⟨q, hq, hqk, hqv⟩

/-- C10: in the `create_new_dataset` attribute assembly, a `None` value
for any listed attribute raises `ValueError` even when the attribute is
not required; an empty string raises exactly for the required attributes
(`title`, `institution`, `tracking_id`, `product_version`); and otherwise
assembly succeeds with every empty-string attribute silently omitted and
every non-empty one present. -/
theorem C10_create_new_dataset_attr_rules (vals : String → Option String)
    (k : String) (r : Bool) :
    ((k, true) ∈ CHUKDataSetUtils.create_new_dataset_attr_spec ↔
      k ∈ ["title", "institution", "tracking_id", "product_version"]) ∧
    ((k, r) ∈ CHUKDataSetUtils.create_new_dataset_attr_spec →
      vals k = none →
      ∃ e, CHUKDataSetUtils.create_new_dataset_attrs vals = .error e) ∧
    ((k, true) ∈ CHUKDataSetUtils.create_new_dataset_attr_spec →
      vals k = some "" →
      ∃ e, CHUKDataSetUtils.create_new_dataset_attrs vals = .error e) ∧
    ((∀ p ∈ CHUKDataSetUtils.create_new_dataset_attr_spec,
        vals p.1 ≠ none ∧ (p.2 = true → vals p.1 ≠ some "")) →
      ∃ attrs, CHUKDataSetUtils.create_new_dataset_attrs vals = .ok attrs ∧
        ∀ k', (dictContains attrs k' = true ↔
          ∃ p ∈ CHUKDataSetUtils.create_new_dataset_attr_spec,
            p.1 = k' ∧ vals p.1 ≠ some "")) := by
  refine ⟨?_, ?_, ?_, ?_⟩
  · simp [CHUKDataSetUtils.create_new_dataset_attr_spec]
  · intro hmem hnone
    exact build_attrs_error vals _ [] ⟨(k, r), hmem, .inl hnone⟩
  · intro hmem hempty
    exact build_attrs_error vals _ [] ⟨(k, true), hmem, .inr ⟨rfl, hempty⟩⟩
  · intro hgood
    obtain ⟨attrs, hok, hchar⟩ := build_attrs_ok vals _ []
      (fun p hp => by
        have := hgood p hp
        tauto)
    refine ⟨attrs, hok, fun k' => ?_⟩
    rw [hchar k']
    simp [dictContains]

/-- Witness for C10: `title` is required and `source` is not; a `None`
`comment` raises, an empty `title` raises, and an all-nonempty assignment
succeeds, with keys present for exactly the non-empty values. -/
theorem C10_create_new_dataset_attr_rules_witness :
    (("title", true) ∈ CHUKDataSetUtils.create_new_dataset_attr_spec ↔
      "title" ∈ ["title", "institution", "tracking_id", "product_version"]) ∧
    (∃ e, CHUKDataSetUtils.create_new_dataset_attrs
      (fun key => if key = "comment" then none else some key) = .error e) ∧
    (∃ e, CHUKDataSetUtils.create_new_dataset_attrs
      (fun key => if key = "title" then some "" else some key) = .error e) ∧
    (∃ attrs, CHUKDataSetUtils.create_new_dataset_attrs
        (fun key => some key) = .ok attrs ∧
      ∀ k', (dictContains attrs k' = true ↔
        ∃ p ∈ CHUKDataSetUtils.create_new_dataset_attr_spec,
          p.1 = k' ∧ (some p.1 : Option String) ≠ some "")) :=
  ⟨(C10_create_new_dataset_attr_rules (fun _ => none) "title" true).1,
   (C10_create_new_dataset_attr_rules
      (fun key => if key = "comment" then none else some key) "comment" false).2.1
      (by decide) (by decide),
   (C10_create_new_dataset_attr_rules
      (fun key => if key = "title" then some "" else some key) "title" true).2.2.1
      (by decide) (by decide),
   (C10_create_new_dataset_attr_rules (fun key => some key) "title" true).2.2.2
      (by decide)⟩

/-- C6 (code bug): `CHUKAuxilaryUtils.create_mask` accepts
`include_missing=True` but constructs `CHUKAuxilaryDataMask(dataset_path,
variable)` without forwarding it, so the returned mask has
`include_missing = False` and its `to_array` leaves a NaN cell `False` —
while the same leaf mask constructed with `include_missing=True`, as the
documentation of `create_mask` promises, forces that cell `True`. -/
theorem C6_create_mask_drops_include_missing :
    ∃ mask, CHUKAuxilaryUtils.create_mask
        ⟨[2, 2], [some 1, some 2, none, some 1]⟩ "urban rural" [1, 2]
        ["urban"] true = .ok mask ∧
      mask.include_missing = false ∧
      (mask.to_array).1.data.getD 2 false = false ∧
      ((CHUKAuxilaryDataMask.to_array
        { CHUKAuxilaryDataMask.init
            ⟨[2, 2], [some 1, some 2, none, some 1]⟩ "urban rural" [1, 2] true with
          mask_values := ["urban"] }).1.data.getD 2 false = true) :=
  ⟨{ CHUKAuxilaryDataMask.init
      ⟨[2, 2], [some 1, some 2, none, some 1]⟩ "urban rural" [1, 2] with
    mask_values := ["urban"] },
   by decide, by decide, by decide, by decide⟩

end CHUK
